import Mathlib

/-!
Verification of the mhb2svg converter (src/main.py).

The program reads ink-stroke XML documents (repeated `Ink` elements, each
with optional `Thickness` text, optional `ForegroundColor` text and an
optional `Points` element holding `StylusPoint` children), computes a
bounding box over all stroke points, and renders one or more SVG pages.

Shallow embedding decisions:
* Point coordinates and the configuration constants are exact rationals.
  The only float behaviours the program actually exercises beyond exact
  arithmetic are the infinities used to seed the bounding box, the
  `nan` produced by `(-inf)/(-inf)`, Python's `ZeroDivisionError` on
  float division by zero, and `int()`'s rejection of nan/inf.  These are
  modelled by the `PyFloat` type below, whose fallible operations return
  `Except` exactly where the Python operation raises.
* XML access is modelled at the `ElementTree` result level: an `Ink`
  record holds the result of `findtext('Thickness')` (with absent and
  empty text both collapsed to `none`, since the code treats both as
  falsy), of `findtext('ForegroundColor')`, and of `find('Points')`
  (`none` when the element is missing, otherwise the parsed `(x, y)`
  pairs of its `StylusPoint` children).
* `write_svg` writes text; we model the document it writes structurally:
  the viewBox dimensions and the ordered list of `rect`/`polyline`
  elements with their attributes.  Python renders a `None` stroke color
  as the literal string "None" in the f-string; `strOfColor` models that.
-/

/-- Python float values reachable in this program: exact rationals plus
the two infinities and nan. -/
inductive PyFloat where
  | fin (q : ℚ)
  | inf
  | ninf
  | nan
deriving DecidableEq

/-- Python `<` on floats: any comparison with nan is false. -/
def PyFloat.lt (x y : PyFloat) : Bool :=
  match x, y with
  | .nan, _ => false
  | _, .nan => false
  | .fin a, .fin b => decide (a < b)
  | .ninf, .ninf => false
  | .ninf, _ => true
  | _, .ninf => false
  | .inf, _ => false
  | .fin _, .inf => true

/-- Python float negation. -/
def PyFloat.neg : PyFloat → PyFloat
  | .fin a => .fin (-a)
  | .inf => .ninf
  | .ninf => .inf
  | .nan => .nan

/-- Python float addition (IEEE rules for the infinities and nan). -/
def PyFloat.add (x y : PyFloat) : PyFloat :=
  match x, y with
  | .nan, _ => .nan
  | _, .nan => .nan
  | .fin a, .fin b => .fin (a + b)
  | .inf, .ninf => .nan
  | .ninf, .inf => .nan
  | .inf, _ => .inf
  | _, .inf => .inf
  | .ninf, _ => .ninf
  | _, .ninf => .ninf

/-- Python float subtraction, `x - y = x + (-y)` under IEEE rules. -/
def PyFloat.sub (x y : PyFloat) : PyFloat :=
  PyFloat.add x (PyFloat.neg y)

/-- Python float multiplication (IEEE rules; `inf * 0` is nan). -/
def PyFloat.mul (x y : PyFloat) : PyFloat :=
  match x, y with
  | .nan, _ => .nan
  | _, .nan => .nan
  | .fin a, .fin b => .fin (a * b)
  | .inf, .fin b => if 0 < b then .inf else if b < 0 then .ninf else .nan
  | .fin a, .inf => if 0 < a then .inf else if a < 0 then .ninf else .nan
  | .ninf, .fin b => if 0 < b then .ninf else if b < 0 then .inf else .nan
  | .fin a, .ninf => if 0 < a then .ninf else if a < 0 then .inf else .nan
  | .inf, .inf => .inf
  | .inf, .ninf => .ninf
  | .ninf, .inf => .ninf
  | .ninf, .ninf => .inf

/-- Python float division.  Python raises `ZeroDivisionError` whenever the
divisor is `0.0`, even for `nan/0.0` and `inf/0.0`; otherwise IEEE rules
(an infinity divided by an infinity is nan). -/
def PyFloat.div (x y : PyFloat) : Except String PyFloat :=
  if y = .fin 0 then .error "ZeroDivisionError: float division by zero"
  else
    match x, y with
    | .nan, _ => .ok .nan
    | _, .nan => .ok .nan
    | .fin a, .fin b => .ok (.fin (a / b))
    | .inf, .fin b => .ok (if 0 < b then .inf else .ninf)
    | .ninf, .fin b => .ok (if 0 < b then .ninf else .inf)
    | .fin _, .inf => .ok (.fin 0)
    | .fin _, .ninf => .ok (.fin 0)
    | .inf, .inf => .ok .nan
    | .inf, .ninf => .ok .nan
    | .ninf, .inf => .ok .nan
    | .ninf, .ninf => .ok .nan

/-- Truncation toward zero, the behaviour of Python `int()` on a float. -/
def ratTrunc (q : ℚ) : ℤ :=
  if q < 0 then -Rat.floor (-q) else Rat.floor q

/-- Python `int()` on a float: truncates finite values, raises on nan
and the infinities. -/
def PyFloat.toInt : PyFloat → Except String ℤ
  | .fin q => .ok (ratTrunc q)
  | .nan => .error "ValueError: cannot convert float NaN to integer"
  | .inf => .error "OverflowError: cannot convert float infinity to integer"
  | .ninf => .error "OverflowError: cannot convert float infinity to integer"

/-- Background color of the slides (module constant `BG_color`). -/
def BG_color : String := "#363b41"

/-- Target aspect ratio (module constant `aspect_ratio = 1.414`). -/
def aspect_ratio : ℚ := 1.414

/-- Padding added on all sides (module constant `padding = 10.0`). -/
def padding : ℚ := 10.0

/-- Stroke width scale (module constant `stroke_ratio = 1.0`). -/
def stroke_ratio : ℚ := 1.0

/-- One `Ink` element, as seen through the ElementTree accessors used by
`convert`: `thickness` is `findtext('Thickness')` parsed as a float with
absent/empty text collapsed to `none`; `foregroundColor` is
`findtext('ForegroundColor')`; `points` is `none` when `find('Points')`
returns no element, otherwise the parsed `(x, y)` pairs of the
`StylusPoint` children (pressure is ignored by the code). -/
structure Ink where
  thickness : Option ℚ
  foregroundColor : Option String
  points : Option (List (ℚ × ℚ))

/-- An ink-stroke XML document: the list `root.findall('.//Ink')`. -/
structure Doc where
  inks : List Ink

/-- One stroke dict built by `convert`: `{"points": …, "color": …,
"width": …}`.  The color is kept as the optional value stored by the
Python code (`None` when color mode is on and `ForegroundColor` is
absent). -/
structure Stroke where
  points : List (ℚ × ℚ)
  color : Option String
  width : ℚ

/-- Running bounding box `(min_x, min_y, max_x, max_y)`. -/
structure BBox where
  minX : PyFloat
  minY : PyFloat
  maxX : PyFloat
  maxY : PyFloat

/-- The seed `(inf, inf, -inf, -inf)` from lines 35-36 of main.py. -/
def initBBox : BBox :=
  { minX := .inf, minY := .inf, maxX := .ninf, maxY := .ninf }

/-- One iteration of the point loop (lines 58-61): four independent
compare-and-update steps on the running bounding box. -/
def pointFold (b : BBox) (p : ℚ × ℚ) : BBox :=
  { minX := if PyFloat.lt (.fin p.1) b.minX then .fin p.1 else b.minX
  , minY := if PyFloat.lt (.fin p.2) b.minY then .fin p.2 else b.minY
  , maxX := if PyFloat.lt b.maxX (.fin p.1) then .fin p.1 else b.maxX
  , maxY := if PyFloat.lt b.maxY (.fin p.2) then .fin p.2 else b.maxY }

/-- One iteration of the `for ink in root.findall('.//Ink')` loop
(lines 38-63): an ink whose `Points` element is missing is skipped;
otherwise its points are folded into the bounding box and a stroke dict
is appended. -/
def inkFold (color : Bool) (acc : BBox × List Stroke) (ink : Ink) : BBox × List Stroke :=
  match ink.points with
  | none => acc
  | some pts =>
      (pts.foldl pointFold acc.1,
       acc.2 ++ [{ points := pts
                 , color := if color then ink.foregroundColor else some "#000000"
                 , width := ink.thickness.getD 1 * stroke_ratio }])

/-- The parsing half of `convert` (lines 35-63): the bounding box and the
stroke list accumulated over all `Ink` elements. -/
def parseStrokes (doc : Doc) (color : Bool) : BBox × List Stroke :=
  doc.inks.foldl (inkFold color) (initBBox, [])

/-- The stroke dict a single ink contributes, if any (specification view
of one `inkFold` step, used to state lemmas). -/
def inkStroke (color : Bool) (ink : Ink) : Option Stroke :=
  ink.points.map (fun pts =>
    { points := pts
    , color := if color then ink.foregroundColor else some "#000000"
    , width := ink.thickness.getD 1 * stroke_ratio })

/-- All parsed points of a document, in document order. -/
def allPoints (doc : Doc) : List (ℚ × ℚ) :=
  (doc.inks.map (fun ink => ink.points.getD [])).flatten

/-- The x coordinates of all parsed points. -/
def allXs (doc : Doc) : List ℚ := (allPoints doc).map Prod.fst

/-- The y coordinates of all parsed points. -/
def allYs (doc : Doc) : List ℚ := (allPoints doc).map Prod.snd

/-- One element of an emitted SVG document: the optional background
rectangle or a stroke polyline (points already translated, stroke color
and width as written into the markup). -/
inductive SvgElem where
  | rect (w h : PyFloat) (fill : String)
  | polyline (pts : List (PyFloat × PyFloat)) (stroke : String) (strokeWidth : ℚ)

/-- An SVG document as written by `write_svg`: viewBox dimensions and the
ordered list of child elements. -/
structure SvgDoc where
  viewBoxW : PyFloat
  viewBoxH : PyFloat
  elems : List SvgElem

/-- How Python's f-string renders the stroke color: the string itself, or
the literal "None" when the stored color is `None`. -/
def strOfColor : Option String → String
  | some c => c
  | none => "None"

/-- The polyline written for one stroke (line 27-28): every point is
translated by `(-min_x + padding, -min_y + padding)`. -/
def strokePolyline (min_x min_y : PyFloat) (s : Stroke) : SvgElem :=
  SvgElem.polyline
    (s.points.map (fun q =>
      (PyFloat.add (PyFloat.sub (.fin q.1) min_x) (.fin padding),
       PyFloat.add (PyFloat.sub (.fin q.2) min_y) (.fin padding))))
    (strOfColor s.color) s.width

/-- The stroke loop of `write_svg` (lines 25-28).  Indexing
`stroke["points"][0]` inside the chained comparison raises `IndexError`
on an empty point list; a stroke is emitted only when its first point's
y coordinate lies strictly inside the vertical window. -/
def renderStrokes (min_x min_y height : PyFloat) : List Stroke → Except String (List SvgElem)
  | [] => .ok []
  | s :: rest =>
      match s.points with
      | [] => .error "IndexError: list index out of range"
      | p :: _ =>
          if PyFloat.lt min_y (.fin p.2) && PyFloat.lt (.fin p.2) (PyFloat.add min_y height) then
            match renderStrokes min_x min_y height rest with
            | .error e => .error e
            | .ok es => .ok (strokePolyline min_x min_y s :: es)
          else renderStrokes min_x min_y height rest

/-- `write_svg` (lines 16-29): viewBox `(width + 2*padding) ×
(height + 2*padding)`, an optional full-canvas background rectangle when
color mode is on, then one polyline per stroke whose first point falls
strictly inside the vertical window. -/
def write_svg (min_x min_y width height : PyFloat) (strokes : List Stroke) (color : Bool) :
    Except String SvgDoc :=
  match renderStrokes min_x min_y height strokes with
  | .error e => .error e
  | .ok elems =>
      .ok { viewBoxW := PyFloat.add width (.fin (2 * padding))
          , viewBoxH := PyFloat.add height (.fin (2 * padding))
          , elems :=
              (if color then
                [SvgElem.rect (PyFloat.add width (.fin (2 * padding)))
                  (PyFloat.add height (.fin (2 * padding))) BG_color]
              else []) ++ elems }

/-- The element a single stroke contributes to a window, if any (pure
view of one `renderStrokes` step on a stroke with at least one point). -/
def strokeElem? (min_x min_y height : PyFloat) (s : Stroke) : Option SvgElem :=
  match s.points with
  | [] => none
  | p :: _ =>
      if PyFloat.lt min_y (.fin p.2) && PyFloat.lt (.fin p.2) (PyFloat.add min_y height) then
        some (strokePolyline min_x min_y s)
      else none

/-- The SVG document `write_svg` produces when no stroke has an empty
point list (pure view, used to state theorems). -/
def renderWindow (min_x min_y width height : PyFloat) (strokes : List Stroke) (color : Bool) :
    SvgDoc :=
  { viewBoxW := PyFloat.add width (.fin (2 * padding))
  , viewBoxH := PyFloat.add height (.fin (2 * padding))
  , elems :=
      (if color then
        [SvgElem.rect (PyFloat.add width (.fin (2 * padding)))
          (PyFloat.add height (.fin (2 * padding))) BG_color]
      else []) ++ strokes.filterMap (strokeElem? min_x min_y height) }

/-- The pagination loop of `convert` (lines 71-72): one
`write_svg(min_x, min_y + i*dh, width, aspect_ratio*width, …)` call per
page index, output named `{output_prefix}-{i}.svg`. -/
def convertPages (minX minY width pageH dh : PyFloat) (strokes : List Stroke)
    (pre : String) (color : Bool) : List ℕ → Except String (List (String × SvgDoc))
  | [] => .ok []
  | i :: rest =>
      match write_svg minX (PyFloat.add minY (PyFloat.mul (.fin (i : ℚ)) dh)) width pageH
          strokes color with
      | .error e => .error e
      | .ok svg =>
          match convertPages minX minY width pageH dh strokes pre color rest with
          | .error e => .error e
          | .ok outs => .ok ((pre ++ "-" ++ toString i ++ ".svg", svg) :: outs)

/-- `convert` (lines 31-73).  Returns the page count and the written
files (name and document), or the Python exception the run raises:
`width = max_x - min_x`, `height = max_y - min_y`,
`pages = int(height / width / aspect_ratio)`; when `pages == 0 or not
paging`, a single full-box `write_svg`, otherwise `pages + 1` windows of
height `aspect_ratio * width` stepped by
`dh = (height - aspect_ratio*width) / pages`. -/
def convert (doc : Doc) (pre : String) (color paging : Bool) :
    Except String (ℤ × List (String × SvgDoc)) :=
  match PyFloat.div
      (PyFloat.sub (parseStrokes doc color).1.maxY (parseStrokes doc color).1.minY)
      (PyFloat.sub (parseStrokes doc color).1.maxX (parseStrokes doc color).1.minX) with
  | .error e => .error e
  | .ok t1 =>
      match PyFloat.div t1 (.fin aspect_ratio) with
      | .error e => .error e
      | .ok t2 =>
          match PyFloat.toInt t2 with
          | .error e => .error e
          | .ok pages =>
              if pages = 0 ∨ paging = false then
                match write_svg (parseStrokes doc color).1.minX (parseStrokes doc color).1.minY
                    (PyFloat.sub (parseStrokes doc color).1.maxX (parseStrokes doc color).1.minX)
                    (PyFloat.sub (parseStrokes doc color).1.maxY (parseStrokes doc color).1.minY)
                    (parseStrokes doc color).2 color with
                | .error e => .error e
                | .ok svg => .ok (0, [(pre ++ ".svg", svg)])
              else
                match PyFloat.div
                    (PyFloat.sub
                      (PyFloat.sub (parseStrokes doc color).1.maxY (parseStrokes doc color).1.minY)
                      (PyFloat.mul (.fin aspect_ratio)
                        (PyFloat.sub (parseStrokes doc color).1.maxX
                          (parseStrokes doc color).1.minX)))
                    (.fin (pages : ℚ)) with
                | .error e => .error e
                | .ok dh =>
                    match convertPages (parseStrokes doc color).1.minX
                        (parseStrokes doc color).1.minY
                        (PyFloat.sub (parseStrokes doc color).1.maxX
                          (parseStrokes doc color).1.minX)
                        (PyFloat.mul (.fin aspect_ratio)
                          (PyFloat.sub (parseStrokes doc color).1.maxX
                            (parseStrokes doc color).1.minX))
                        dh (parseStrokes doc color).2 pre color
                        (List.range (pages.toNat + 1)) with
                    | .error e => .error e
                    | .ok outs => .ok (pages, outs)

/-- `extract_sid` (lines 75-80), modelled at the level of the parsed
query mapping `urllib.parse.parse_qs` returns (parameter name to its
list of values; `parse_qs` never stores an empty value list). -/
def extract_sid (query_params : List (String × List String)) : Except String String :=
  match query_params.lookup "s_id" with
  | none => .error "URL does not contain the \"s_id\" parameter."
  | some vs =>
      match vs with
      | [] => .error "IndexError: list index out of range"
      | v :: _ => .ok v

/-- The link branch of `__main__` (lines 152-155): `extract_sid` first,
then the network lookup (abstracted as `fetch`) on the extracted sid. -/
def fetch_branch (query_params : List (String × List String))
    (fetch : String → Except String String) : Except String String :=
  match extract_sid query_params with
  | .error e => .error e
  | .ok sid => fetch sid

/-- The per-slide label appended by `process_slides` (lines 126-129):
the file stem, with the page count in parentheses when paginated. -/
def slideLabel (stem : String) (pages : ℤ) : String :=
  if pages = 0 then stem else stem ++ " (" ++ toString pages ++ ")"

/-- The conversion loop of `process_slides` (lines 122-129): exceptions
from `convert` propagate. -/
def convertAll (color paging : Bool) : List (String × Doc) → Except String (List String)
  | [] => .ok []
  | (stem, doc) :: rest =>
      match convert doc stem color paging with
      | .error e => .error e
      | .ok (pages, _) =>
          match convertAll color paging rest with
          | .error e => .error e
          | .ok labels => .ok (slideLabel stem pages :: labels)

/-- `process_slides` (lines 114-130): returns `None` (modelled `none`)
after a warning when the `Slides/` directory does not exist, otherwise
the list of slide labels.  A missing XML file list is just the empty
list (the code only prints a message). -/
def process_slides (slidesDirExists : Bool) (xmlFiles : List (String × Doc))
    (color paging : Bool) : Except String (Option (List String)) :=
  if slidesDirExists then
    match convertAll color paging xmlFiles with
    | .error e => .error e
    | .ok labels => .ok (some labels)
  else .ok none

/-- The tail of `__main__` (lines 167-168): `slides =
process_slides(...)` followed by `print('Generated ' + ', '.join(slides))`.
Joining `None` raises `TypeError` in Python. -/
def mainReport (slidesDirExists : Bool) (xmlFiles : List (String × Doc))
    (color paging : Bool) : Except String String :=
  match process_slides slidesDirExists xmlFiles color paging with
  | .error e => .error e
  | .ok none => .error "TypeError: can only join an iterable"
  | .ok (some labels) => .ok ("Generated " ++ String.intercalate ", " labels)

/-- Whether an SVG element is a polyline. -/
def isPolyline : SvgElem → Bool
  | .polyline _ _ _ => true
  | .rect _ _ _ => false

/-- Number of polyline elements in a list of SVG elements. -/
def countPolylines (l : List SvgElem) : ℕ := l.countP isPolyline

/-- Whether an ink has a first point whose y coordinate lies strictly
between `lo` and `hi` (the windowing test `write_svg` applies to the
stroke the ink produces, on a finite window). -/
def inkFirstYBetween (lo hi : ℚ) (ink : Ink) : Bool :=
  match ink.points with
  | some (p :: _) => decide (lo < p.2) && decide (p.2 < hi)
  | _ => false

/-- Windowing test applied to an ink's stroke by `write_svg`: first point
present and strictly inside the vertical window. -/
def inkWindowB (my h : PyFloat) (ink : Ink) : Bool :=
  match ink.points with
  | some (p :: _) => PyFloat.lt my (.fin p.2) && PyFloat.lt (.fin p.2) (PyFloat.add my h)
  | _ => false

/-- Windowing test applied directly to a stroke dict. -/
def strokeWindowB (my h : PyFloat) (s : Stroke) : Bool :=
  match s.points with
  | p :: _ => PyFloat.lt my (.fin p.2) && PyFloat.lt (.fin p.2) (PyFloat.add my h)
  | _ => false

theorem PyFloat.add_fin (a b : ℚ) : PyFloat.add (.fin a) (.fin b) = .fin (a + b) := rfl

theorem PyFloat.sub_fin (a b : ℚ) : PyFloat.sub (.fin a) (.fin b) = .fin (a - b) := by
  simp [PyFloat.sub, PyFloat.neg, PyFloat.add, sub_eq_add_neg]

theorem PyFloat.mul_fin (a b : ℚ) : PyFloat.mul (.fin a) (.fin b) = .fin (a * b) := rfl

theorem PyFloat.lt_fin (a b : ℚ) : PyFloat.lt (.fin a) (.fin b) = decide (a < b) := rfl

theorem PyFloat.div_fin (a b : ℚ) (hb : b ≠ 0) :
    PyFloat.div (.fin a) (.fin b) = .ok (.fin (a / b)) := by
  rw [PyFloat.div, if_neg (by simp [hb])]

theorem PyFloat.toInt_fin (q : ℚ) : PyFloat.toInt (.fin q) = .ok (ratTrunc q) := rfl

theorem foldl_pointFold (pts : List (ℚ × ℚ)) (b : BBox) :
    pts.foldl pointFold b =
      { minX := pts.foldl (fun m q => if PyFloat.lt (.fin q.1) m then .fin q.1 else m) b.minX
      , minY := pts.foldl (fun m q => if PyFloat.lt (.fin q.2) m then .fin q.2 else m) b.minY
      , maxX := pts.foldl (fun m q => if PyFloat.lt m (.fin q.1) then .fin q.1 else m) b.maxX
      , maxY := pts.foldl (fun m q => if PyFloat.lt m (.fin q.2) then .fin q.2 else m) b.maxY } := by
  induction pts generalizing b with
  | nil => rfl
  | cons p rest ih => simp only [List.foldl_cons]; rw [ih]; rfl

theorem foldl_minStep_fin (f : ℚ × ℚ → ℚ) (pts : List (ℚ × ℚ)) (a : ℚ) :
    pts.foldl (fun m q => if PyFloat.lt (.fin (f q)) m then .fin (f q) else m) (.fin a)
      = .fin (pts.foldl (fun m q => min m (f q)) a) := by
  induction pts generalizing a with
  | nil => rfl
  | cons p rest ih =>
      simp only [List.foldl_cons]
      have h : (if PyFloat.lt (.fin (f p)) (.fin a) then PyFloat.fin (f p) else .fin a)
          = .fin (min a (f p)) := by
        simp only [PyFloat.lt]
        by_cases h : f p < a
        · simp [h, min_eq_right (le_of_lt h)]
        · simp [h, min_eq_left (le_of_not_lt h)]
      rw [h]; exact ih _

theorem foldl_maxStep_fin (f : ℚ × ℚ → ℚ) (pts : List (ℚ × ℚ)) (a : ℚ) :
    pts.foldl (fun m q => if PyFloat.lt m (.fin (f q)) then .fin (f q) else m) (.fin a)
      = .fin (pts.foldl (fun m q => max m (f q)) a) := by
  induction pts generalizing a with
  | nil => rfl
  | cons p rest ih =>
      simp only [List.foldl_cons]
      have h : (if PyFloat.lt (.fin a) (.fin (f p)) then PyFloat.fin (f p) else .fin a)
          = .fin (max a (f p)) := by
        simp only [PyFloat.lt]
        by_cases h : a < f p
        · simp [h, max_eq_right (le_of_lt h)]
        · simp [h, max_eq_left (le_of_not_lt h)]
      rw [h]; exact ih _

theorem foldl_minStep_inf (f : ℚ × ℚ → ℚ) (p : ℚ × ℚ) (rest : List (ℚ × ℚ)) :
    (p :: rest).foldl (fun m q => if PyFloat.lt (.fin (f q)) m then .fin (f q) else m) .inf
      = .fin (rest.foldl (fun m q => min m (f q)) (f p)) := by
  simp only [List.foldl_cons]
  rw [show (if PyFloat.lt (.fin (f p)) PyFloat.inf then PyFloat.fin (f p) else PyFloat.inf)
      = PyFloat.fin (f p) from if_pos rfl]
  exact foldl_minStep_fin f rest (f p)

theorem foldl_maxStep_ninf (f : ℚ × ℚ → ℚ) (p : ℚ × ℚ) (rest : List (ℚ × ℚ)) :
    (p :: rest).foldl (fun m q => if PyFloat.lt m (.fin (f q)) then .fin (f q) else m) .ninf
      = .fin (rest.foldl (fun m q => max m (f q)) (f p)) := by
  simp only [List.foldl_cons]
  rw [show (if PyFloat.lt PyFloat.ninf (.fin (f p)) then PyFloat.fin (f p) else PyFloat.ninf)
      = PyFloat.fin (f p) from if_pos rfl]
  exact foldl_maxStep_fin f rest (f p)

theorem foldl_min_le (f : ℚ × ℚ → ℚ) (pts : List (ℚ × ℚ)) (a : ℚ) :
    pts.foldl (fun m q => min m (f q)) a ≤ a
      ∧ ∀ q ∈ pts, pts.foldl (fun m q => min m (f q)) a ≤ f q := by
  induction pts generalizing a with
  | nil => exact ⟨le_refl a, by simp⟩
  | cons p rest ih =>
      obtain ⟨h1, h2⟩ := ih (min a (f p))
      refine ⟨le_trans h1 (min_le_left _ _), ?_⟩
      intro q hq
      rcases List.mem_cons.mp hq with h | h
      · subst h; exact le_trans h1 (min_le_right _ _)
      · exact h2 q h

theorem foldl_max_ge (f : ℚ × ℚ → ℚ) (pts : List (ℚ × ℚ)) (a : ℚ) :
    a ≤ pts.foldl (fun m q => max m (f q)) a
      ∧ ∀ q ∈ pts, f q ≤ pts.foldl (fun m q => max m (f q)) a := by
  induction pts generalizing a with
  | nil => exact ⟨le_refl a, by simp⟩
  | cons p rest ih =>
      obtain ⟨h1, h2⟩ := ih (max a (f p))
      refine ⟨le_trans (le_max_left _ _) h1, ?_⟩
      intro q hq
      rcases List.mem_cons.mp hq with h | h
      · subst h; exact le_trans (le_max_right _ _) h1
      · exact h2 q h

theorem foldl_min_ge (f : ℚ × ℚ → ℚ) (pts : List (ℚ × ℚ)) (m : ℚ) :
    ∀ a : ℚ, m ≤ a → (∀ q ∈ pts, m ≤ f q) → m ≤ pts.foldl (fun m' q => min m' (f q)) a := by
  induction pts with
  | nil => intro a ha _; exact ha
  | cons p rest ih =>
      intro a ha hp
      exact ih (min a (f p)) (le_min ha (hp p (by simp)))
        (fun q hq => hp q (List.mem_cons_of_mem _ hq))

theorem foldl_max_le (f : ℚ × ℚ → ℚ) (pts : List (ℚ × ℚ)) (m : ℚ) :
    ∀ a : ℚ, a ≤ m → (∀ q ∈ pts, f q ≤ m) → pts.foldl (fun m' q => max m' (f q)) a ≤ m := by
  induction pts with
  | nil => intro a ha _; exact ha
  | cons p rest ih =>
      intro a ha hp
      exact ih (max a (f p)) (max_le ha (hp p (by simp)))
        (fun q hq => hp q (List.mem_cons_of_mem _ hq))

theorem foldl_min_eq (f : ℚ × ℚ → ℚ) (pts : List (ℚ × ℚ)) (a m : ℚ)
    (hmem : m = a ∨ ∃ q ∈ pts, f q = m) (ha : m ≤ a) (hp : ∀ q ∈ pts, m ≤ f q) :
    pts.foldl (fun m' q => min m' (f q)) a = m := by
  refine le_antisymm ?_ (foldl_min_ge f pts m a ha hp)
  rcases hmem with h | ⟨q, hq, hfq⟩
  · rw [← h] at ha ⊢
    exact (foldl_min_le f pts m).1
  · rw [← hfq]; exact (foldl_min_le f pts a).2 q hq

theorem foldl_max_eq (f : ℚ × ℚ → ℚ) (pts : List (ℚ × ℚ)) (a m : ℚ)
    (hmem : m = a ∨ ∃ q ∈ pts, f q = m) (ha : a ≤ m) (hp : ∀ q ∈ pts, f q ≤ m) :
    pts.foldl (fun m' q => max m' (f q)) a = m := by
  refine le_antisymm (foldl_max_le f pts m a ha hp) ?_
  rcases hmem with h | ⟨q, hq, hfq⟩
  · rw [← h] at ha ⊢
    exact (foldl_max_ge f pts m).1
  · rw [← hfq]; exact (foldl_max_ge f pts a).2 q hq

theorem foldl_inkFold_fst (color : Bool) (inks : List Ink) (b : BBox) (l : List Stroke) :
    (inks.foldl (inkFold color) (b, l)).1
      = ((inks.map (fun ink => ink.points.getD [])).flatten).foldl pointFold b := by
  induction inks generalizing b l with
  | nil => rfl
  | cons ink rest ih =>
      simp only [List.foldl_cons, List.map_cons, List.flatten_cons, List.foldl_append]
      cases h : ink.points with
      | none =>
          simp only [inkFold, h, Option.getD_none, List.foldl_nil]
          exact ih b l
      | some pts =>
          simp only [inkFold, h, Option.getD_some]
          exact ih _ _

theorem foldl_inkFold_snd (color : Bool) (inks : List Ink) (b : BBox) (l : List Stroke) :
    (inks.foldl (inkFold color) (b, l)).2 = l ++ inks.filterMap (inkStroke color) := by
  induction inks generalizing b l with
  | nil => simp
  | cons ink rest ih =>
      simp only [List.foldl_cons]
      cases h : ink.points with
      | none =>
          rw [List.filterMap_cons_none (by simp [inkStroke, h])]
          simp only [inkFold, h]
          exact ih b l
      | some pts =>
          have hs : inkStroke color ink
              = some { points := pts
                     , color := if color then ink.foregroundColor else some "#000000"
                     , width := ink.thickness.getD 1 * stroke_ratio } := by
            simp [inkStroke, h]
          rw [List.filterMap_cons_some hs]
          simp only [inkFold, h]
          rw [ih]
          simp

theorem parseStrokes_fst (doc : Doc) (color : Bool) :
    (parseStrokes doc color).1 = (allPoints doc).foldl pointFold initBBox :=
  foldl_inkFold_fst color doc.inks initBBox []

theorem parseStrokes_snd (doc : Doc) (color : Bool) :
    (parseStrokes doc color).2 = doc.inks.filterMap (inkStroke color) := by
  have h := foldl_inkFold_snd color doc.inks initBBox []
  simpa [parseStrokes] using h

theorem fold_min_component (f : ℚ × ℚ → ℚ) (p : ℚ × ℚ) (rest : List (ℚ × ℚ)) (m : ℚ)
    (hmem : ∃ q ∈ p :: rest, f q = m) (hle : ∀ q ∈ p :: rest, m ≤ f q) :
    (p :: rest).foldl (fun acc q => if PyFloat.lt (.fin (f q)) acc then .fin (f q) else acc) .inf
      = .fin m := by
  rw [foldl_minStep_inf]
  congr 1
  apply foldl_min_eq
  · rcases hmem with ⟨q, hq, hfq⟩
    rcases List.mem_cons.mp hq with h | h
    · left; rw [← hfq, h]
    · right; exact ⟨q, h, hfq⟩
  · exact hle p (by simp)
  · intro q hq; exact hle q (List.mem_cons_of_mem _ hq)

theorem fold_max_component (f : ℚ × ℚ → ℚ) (p : ℚ × ℚ) (rest : List (ℚ × ℚ)) (m : ℚ)
    (hmem : ∃ q ∈ p :: rest, f q = m) (hge : ∀ q ∈ p :: rest, f q ≤ m) :
    (p :: rest).foldl (fun acc q => if PyFloat.lt acc (.fin (f q)) then .fin (f q) else acc) .ninf
      = .fin m := by
  rw [foldl_maxStep_ninf]
  congr 1
  apply foldl_max_eq
  · rcases hmem with ⟨q, hq, hfq⟩
    rcases List.mem_cons.mp hq with h | h
    · left; rw [← hfq, h]
    · right; exact ⟨q, h, hfq⟩
  · exact hge p (by simp)
  · intro q hq; exact hge q (List.mem_cons_of_mem _ hq)

theorem parseStrokes_bbox (doc : Doc) (color : Bool) (mx my Mx My : ℚ)
    (hmx : mx ∈ allXs doc ∧ ∀ x ∈ allXs doc, mx ≤ x)
    (hmy : my ∈ allYs doc ∧ ∀ y ∈ allYs doc, my ≤ y)
    (hMx : Mx ∈ allXs doc ∧ ∀ x ∈ allXs doc, x ≤ Mx)
    (hMy : My ∈ allYs doc ∧ ∀ y ∈ allYs doc, y ≤ My) :
    (parseStrokes doc color).1 = ⟨.fin mx, .fin my, .fin Mx, .fin My⟩ := by
  cases hap : allPoints doc with
  | nil =>
      exfalso
      have := hmx.1
      rw [allXs, hap] at this
      simp at this
  | cons p rest =>
      have memx : ∀ m : ℚ, m ∈ allXs doc → ∃ q ∈ p :: rest, q.1 = m := by
        intro m hm
        rw [allXs, hap] at hm
        obtain ⟨q, hq, he⟩ := List.mem_map.mp hm
        exact ⟨q, hq, he⟩
      have memy : ∀ m : ℚ, m ∈ allYs doc → ∃ q ∈ p :: rest, q.2 = m := by
        intro m hm
        rw [allYs, hap] at hm
        obtain ⟨q, hq, he⟩ := List.mem_map.mp hm
        exact ⟨q, hq, he⟩
      have bndx : ∀ m : ℚ, (∀ x ∈ allXs doc, m ≤ x) → ∀ q ∈ p :: rest, m ≤ q.1 := by
        intro m hm q hq
        exact hm q.1 (by rw [allXs, hap]; exact List.mem_map_of_mem _ hq)
      have bndx' : ∀ m : ℚ, (∀ x ∈ allXs doc, x ≤ m) → ∀ q ∈ p :: rest, q.1 ≤ m := by
        intro m hm q hq
        exact hm q.1 (by rw [allXs, hap]; exact List.mem_map_of_mem _ hq)
      have bndy : ∀ m : ℚ, (∀ y ∈ allYs doc, m ≤ y) → ∀ q ∈ p :: rest, m ≤ q.2 := by
        intro m hm q hq
        exact hm q.2 (by rw [allYs, hap]; exact List.mem_map_of_mem _ hq)
      have bndy' : ∀ m : ℚ, (∀ y ∈ allYs doc, y ≤ m) → ∀ q ∈ p :: rest, q.2 ≤ m := by
        intro m hm q hq
        exact hm q.2 (by rw [allYs, hap]; exact List.mem_map_of_mem _ hq)
      rw [parseStrokes_fst, hap, foldl_pointFold]
      rw [show initBBox.minX = PyFloat.inf from rfl, show initBBox.minY = PyFloat.inf from rfl,
        show initBBox.maxX = PyFloat.ninf from rfl, show initBBox.maxY = PyFloat.ninf from rfl]
      rw [fold_min_component Prod.fst p rest mx (memx mx hmx.1) (bndx mx hmx.2),
        fold_min_component Prod.snd p rest my (memy my hmy.1) (bndy my hmy.2),
        fold_max_component Prod.fst p rest Mx (memx Mx hMx.1) (bndx' Mx hMx.2),
        fold_max_component Prod.snd p rest My (memy My hMy.1) (bndy' My hMy.2)]

theorem parseStrokes_nonempty (doc : Doc) (color : Bool)
    (hne : ∀ ink ∈ doc.inks, ink.points ≠ some []) :
    ∀ s ∈ (parseStrokes doc color).2, s.points ≠ [] := by
  intro s hs
  rw [parseStrokes_snd] at hs
  obtain ⟨ink, hink, h⟩ := List.mem_filterMap.mp hs
  cases hp : ink.points with
  | none => rw [inkStroke, hp] at h; simp at h
  | some pts =>
      rw [inkStroke, hp, Option.map_some'] at h
      injection h with h
      subst h
      intro hnil
      exact hne ink hink (by rw [hp]; exact congrArg some hnil)

theorem parseStrokes_color_false (doc : Doc) (s : Stroke)
    (hs : s ∈ (parseStrokes doc false).2) : s.color = some "#000000" := by
  rw [parseStrokes_snd] at hs
  obtain ⟨ink, _, h⟩ := List.mem_filterMap.mp hs
  cases hp : ink.points with
  | none => rw [inkStroke, hp] at h; simp at h
  | some pts =>
      rw [inkStroke, hp, Option.map_some'] at h
      injection h with h
      subst h
      rfl

theorem parseStrokes_color_true (doc : Doc) (s : Stroke)
    (hs : s ∈ (parseStrokes doc true).2) : ∃ ink ∈ doc.inks, s.color = ink.foregroundColor := by
  rw [parseStrokes_snd] at hs
  obtain ⟨ink, hink, h⟩ := List.mem_filterMap.mp hs
  cases hp : ink.points with
  | none => rw [inkStroke, hp] at h; simp at h
  | some pts =>
      rw [inkStroke, hp, Option.map_some'] at h
      injection h with h
      subst h
      exact ⟨ink, hink, rfl⟩

theorem renderStrokes_eq (mx my h : PyFloat) (strokes : List Stroke)
    (hsn : ∀ s ∈ strokes, s.points ≠ []) :
    renderStrokes mx my h strokes = .ok (strokes.filterMap (strokeElem? mx my h)) := by
  induction strokes with
  | nil => rfl
  | cons s rest ih =>
      have hs : s.points ≠ [] := hsn s (by simp)
      have hr : ∀ t ∈ rest, t.points ≠ [] := fun t ht => hsn t (List.mem_cons_of_mem _ ht)
      cases hp : s.points with
      | nil => exact absurd hp hs
      | cons p ps =>
          have hred : renderStrokes mx my h (s :: rest)
              = if PyFloat.lt my (.fin p.2) && PyFloat.lt (.fin p.2) (PyFloat.add my h) then
                  match renderStrokes mx my h rest with
                  | .error e => .error e
                  | .ok es => .ok (strokePolyline mx my s :: es)
                else renderStrokes mx my h rest := by
            rw [renderStrokes, hp]
          have helem : strokeElem? mx my h s
              = (if PyFloat.lt my (.fin p.2) && PyFloat.lt (.fin p.2) (PyFloat.add my h) then
                  some (strokePolyline mx my s) else none) := by
            rw [strokeElem?, hp]
          rw [hred]
          by_cases hc :
              (PyFloat.lt my (.fin p.2) && PyFloat.lt (.fin p.2) (PyFloat.add my h)) = true
          · rw [if_pos hc, ih hr,
              List.filterMap_cons_some (by rw [helem, if_pos hc])]
          · rw [if_neg hc, ih hr,
              List.filterMap_cons_none (by rw [helem, if_neg hc])]

theorem write_svg_eq (mx my w h : PyFloat) (strokes : List Stroke) (color : Bool)
    (hsn : ∀ s ∈ strokes, s.points ≠ []) :
    write_svg mx my w h strokes color = .ok (renderWindow mx my w h strokes color) := by
  rw [write_svg, renderStrokes_eq mx my h strokes hsn]
  rfl

theorem convertPages_eq (mxF myF wF phF dhF : PyFloat) (strokes : List Stroke) (pre : String)
    (color : Bool) (hsn : ∀ s ∈ strokes, s.points ≠ []) (is : List ℕ) :
    convertPages mxF myF wF phF dhF strokes pre color is =
      .ok (is.map (fun (i : ℕ) =>
        (pre ++ "-" ++ toString i ++ ".svg",
         renderWindow mxF (PyFloat.add myF (PyFloat.mul (.fin ((i : ℕ) : ℚ)) dhF)) wF phF
           strokes color))) := by
  induction is with
  | nil => rfl
  | cons i rest ih =>
      rw [convertPages, write_svg_eq _ _ _ _ _ _ hsn, ih]
      rfl

theorem convert_eq_single (doc : Doc) (pre : String) (color paging : Bool)
    (mx my Mx My : ℚ)
    (hbb : (parseStrokes doc color).1 = ⟨.fin mx, .fin my, .fin Mx, .fin My⟩)
    (hw : Mx - mx ≠ 0)
    (hne : ∀ ink ∈ doc.inks, ink.points ≠ some [])
    (hbr : paging = false ∨ ratTrunc ((My - my) / (Mx - mx) / aspect_ratio) = 0) :
    convert doc pre color paging =
      .ok (0, [(pre ++ ".svg",
        renderWindow (.fin mx) (.fin my) (.fin (Mx - mx)) (.fin (My - my))
          (parseStrokes doc color).2 color)]) := by
  have hsn := parseStrokes_nonempty doc color hne
  have hcond : ratTrunc ((My - my) / (Mx - mx) / aspect_ratio) = 0 ∨ paging = false := by
    rcases hbr with h | h
    · exact Or.inr h
    · exact Or.inl h
  have d1 : PyFloat.div (.fin (My - my)) (.fin (Mx - mx))
      = .ok (.fin ((My - my) / (Mx - mx))) := PyFloat.div_fin _ _ hw
  have d2 : PyFloat.div (.fin ((My - my) / (Mx - mx))) (.fin aspect_ratio)
      = .ok (.fin ((My - my) / (Mx - mx) / aspect_ratio)) :=
    PyFloat.div_fin _ _ (by norm_num [aspect_ratio])
  rw [convert, hbb]
  simp only [PyFloat.sub_fin, d1, d2, PyFloat.toInt_fin]
  rw [if_pos hcond, write_svg_eq _ _ _ _ _ _ hsn]

theorem convert_eq_paged (doc : Doc) (pre : String) (color : Bool)
    (mx my Mx My : ℚ) (k : ℤ)
    (hbb : (parseStrokes doc color).1 = ⟨.fin mx, .fin my, .fin Mx, .fin My⟩)
    (hw : Mx - mx ≠ 0)
    (hne : ∀ ink ∈ doc.inks, ink.points ≠ some [])
    (hk : ratTrunc ((My - my) / (Mx - mx) / aspect_ratio) = k) (hk0 : k ≠ 0) :
    convert doc pre color true =
      .ok (k, (List.range (k.toNat + 1)).map (fun (i : ℕ) =>
        (pre ++ "-" ++ toString i ++ ".svg",
         renderWindow (.fin mx)
           (.fin (my + ((i : ℕ) : ℚ) * ((My - my - aspect_ratio * (Mx - mx)) / (k : ℚ))))
           (.fin (Mx - mx)) (.fin (aspect_ratio * (Mx - mx)))
           (parseStrokes doc color).2 color))) := by
  have hsn := parseStrokes_nonempty doc color hne
  have d1 : PyFloat.div (.fin (My - my)) (.fin (Mx - mx))
      = .ok (.fin ((My - my) / (Mx - mx))) := PyFloat.div_fin _ _ hw
  have d2 : PyFloat.div (.fin ((My - my) / (Mx - mx))) (.fin aspect_ratio)
      = .ok (.fin ((My - my) / (Mx - mx) / aspect_ratio)) :=
    PyFloat.div_fin _ _ (by norm_num [aspect_ratio])
  have d3 : PyFloat.div (.fin (My - my - aspect_ratio * (Mx - mx))) (.fin ((k : ℚ)))
      = .ok (.fin ((My - my - aspect_ratio * (Mx - mx)) / (k : ℚ))) :=
    PyFloat.div_fin _ _ (by exact_mod_cast hk0)
  rw [convert, hbb]
  simp only [PyFloat.sub_fin, d1, d2, PyFloat.toInt_fin, hk, PyFloat.mul_fin]
  rw [if_neg (by simp [hk0])]
  simp only [PyFloat.sub_fin, d3]
  rw [convertPages_eq _ _ _ _ _ _ _ _ hsn]
  simp only [PyFloat.mul_fin, PyFloat.add_fin]


theorem strokeElem?_polyline (mx my h : PyFloat) (s : Stroke) (e : SvgElem)
    (he : strokeElem? mx my h s = some e) : isPolyline e = true := by
  cases hp : s.points with
  | nil =>
      rw [show strokeElem? mx my h s = none from by rw [strokeElem?, hp]] at he
      cases he
  | cons p ps =>
      rw [show strokeElem? mx my h s
          = (if PyFloat.lt my (.fin p.2) && PyFloat.lt (.fin p.2) (PyFloat.add my h) then
              some (strokePolyline mx my s) else none) from by rw [strokeElem?, hp]] at he
      by_cases hc : (PyFloat.lt my (.fin p.2) && PyFloat.lt (.fin p.2) (PyFloat.add my h)) = true
      · rw [if_pos hc] at he
        injection he with he
        subst he
        rfl
      · rw [if_neg hc] at he; cases he

theorem strokeElem?_isSome (mx my h : PyFloat) (s : Stroke) :
    (strokeElem? mx my h s).isSome = strokeWindowB my h s := by
  cases hp : s.points with
  | nil =>
      rw [show strokeElem? mx my h s = none from by rw [strokeElem?, hp],
        show strokeWindowB my h s = false from by rw [strokeWindowB, hp]]
      rfl
  | cons p ps =>
      rw [show strokeElem? mx my h s
          = (if PyFloat.lt my (.fin p.2) && PyFloat.lt (.fin p.2) (PyFloat.add my h) then
              some (strokePolyline mx my s) else none) from by rw [strokeElem?, hp],
        show strokeWindowB my h s
          = (PyFloat.lt my (.fin p.2) && PyFloat.lt (.fin p.2) (PyFloat.add my h)) from by
            rw [strokeWindowB, hp]]
      by_cases hc : (PyFloat.lt my (.fin p.2) && PyFloat.lt (.fin p.2) (PyFloat.add my h)) = true
      · rw [if_pos hc, hc]; rfl
      · rw [if_neg hc, (Bool.not_eq_true _).mp hc]; rfl

theorem inkWindowB_eq (color : Bool) (my h : PyFloat) (ink : Ink) (s : Stroke)
    (hs : inkStroke color ink = some s) : strokeWindowB my h s = inkWindowB my h ink := by
  cases hp : ink.points with
  | none => rw [inkStroke, hp] at hs; cases hs
  | some pts =>
      rw [inkStroke, hp, Option.map_some'] at hs
      injection hs with hs
      subst hs
      cases hpts : pts with
      | nil =>
          rw [show inkWindowB my h ink = false from by rw [inkWindowB, hp, hpts]]
          rfl
      | cons p ps =>
          rw [show inkWindowB my h ink
              = (PyFloat.lt my (.fin p.2) && PyFloat.lt (.fin p.2) (PyFloat.add my h)) from by
            rw [inkWindowB, hp, hpts]]
          rfl

theorem countPolylines_filterMap (mx my h : PyFloat) (strokes : List Stroke) :
    countPolylines (strokes.filterMap (strokeElem? mx my h))
      = strokes.countP (fun s => (strokeElem? mx my h s).isSome) := by
  induction strokes with
  | nil => rfl
  | cons s rest ih =>
      cases he : strokeElem? mx my h s with
      | none =>
          rw [List.filterMap_cons_none he]
          simp [List.countP_cons, he, ih]
      | some e =>
          rw [List.filterMap_cons_some he]
          simp [countPolylines, List.countP_cons, strokeElem?_polyline mx my h s e he, he,
            ← ih, countPolylines]

theorem countP_filterMap_inkStroke (color : Bool) (mx my h : PyFloat) (inks : List Ink) :
    ((inks.filterMap (inkStroke color)).countP (fun s => (strokeElem? mx my h s).isSome))
      = inks.countP (inkWindowB my h) := by
  induction inks with
  | nil => rfl
  | cons ink rest ih =>
      cases hi : inkStroke color ink with
      | none =>
          rw [List.filterMap_cons_none hi, ih, List.countP_cons]
          have hw : inkWindowB my h ink = false := by
            cases hp : ink.points with
            | none => rw [inkWindowB, hp]
            | some pts => rw [inkStroke, hp] at hi; simp at hi
          rw [hw]; simp
      | some s =>
          rw [List.filterMap_cons_some hi, List.countP_cons, List.countP_cons, ih,
            strokeElem?_isSome, inkWindowB_eq color my h ink s hi]

theorem renderStrokes_mem (mx my h : PyFloat) (strokes : List Stroke) :
    ∀ es : List SvgElem, renderStrokes mx my h strokes = .ok es →
      ∀ e ∈ es, ∃ s ∈ strokes, e = strokePolyline mx my s := by
  induction strokes with
  | nil =>
      intro es heq e he
      rw [renderStrokes] at heq
      injection heq with heq
      subst heq
      simp at he
  | cons s rest ih =>
      intro es heq e he
      cases hp : s.points with
      | nil =>
          rw [show renderStrokes mx my h (s :: rest)
              = .error "IndexError: list index out of range" from by rw [renderStrokes, hp]] at heq
          cases heq
      | cons p ps =>
          rw [show renderStrokes mx my h (s :: rest)
              = (if PyFloat.lt my (.fin p.2) && PyFloat.lt (.fin p.2) (PyFloat.add my h) then
                  match renderStrokes mx my h rest with
                  | .error e => .error e
                  | .ok es => .ok (strokePolyline mx my s :: es)
                else renderStrokes mx my h rest) from by rw [renderStrokes, hp]] at heq
          by_cases hc :
              (PyFloat.lt my (.fin p.2) && PyFloat.lt (.fin p.2) (PyFloat.add my h)) = true
          · rw [if_pos hc] at heq
            cases hrec : renderStrokes mx my h rest with
            | error err => rw [hrec] at heq; cases heq
            | ok es' =>
                rw [hrec] at heq
                injection heq with heq
                subst heq
                rcases List.mem_cons.mp he with h1 | h1
                · exact ⟨s, by simp, h1⟩
                · obtain ⟨t, ht, he'⟩ := ih es' hrec e h1
                  exact ⟨t, List.mem_cons_of_mem _ ht, he'⟩
          · rw [if_neg hc] at heq
            obtain ⟨t, ht, he'⟩ := ih es heq e he
            exact ⟨t, List.mem_cons_of_mem _ ht, he'⟩

theorem write_svg_elems (mx my w h : PyFloat) (strokes : List Stroke) (color : Bool)
    (svg : SvgDoc) (heq : write_svg mx my w h strokes color = .ok svg) :
    ∃ es, renderStrokes mx my h strokes = .ok es ∧
      svg = { viewBoxW := PyFloat.add w (.fin (2 * padding))
            , viewBoxH := PyFloat.add h (.fin (2 * padding))
            , elems :=
                (if color then
                  [SvgElem.rect (PyFloat.add w (.fin (2 * padding)))
                    (PyFloat.add h (.fin (2 * padding))) BG_color]
                else []) ++ es } := by
  rw [write_svg] at heq
  cases hrec : renderStrokes mx my h strokes with
  | error err => rw [hrec] at heq; cases heq
  | ok es =>
      rw [hrec] at heq
      injection heq with heq
      exact ⟨es, rfl, heq.symm⟩

/-- C2: the claim says an Ink with no points is skipped whether its
`Points` element is missing or present-but-empty.  The code only skips
the missing case (line 50-51).  A present `Points` element with zero
`StylusPoint` children produces a stroke with an empty point list, which
does not move the bounding box but makes `write_svg` raise `IndexError`
at `stroke["points"][0]` (line 26).  First conjunct: the failing input
(one real stroke plus one empty-`Points` ink) raises; second conjunct:
the missing-`Points` ink is indeed skipped silently. -/
theorem convert_empty_points_raises :
    convert ⟨[⟨none, none, some [(0, 0), (100, 50)]⟩, ⟨none, none, some []⟩]⟩ "out" false false
        = .error "IndexError: list index out of range" ∧
      convert ⟨[⟨none, none, some [(0, 0), (100, 50)]⟩, ⟨none, none, none⟩]⟩ "out" false false
        = .ok (0, [("out.svg",
            { viewBoxW := .fin 120, viewBoxH := .fin 70, elems := [] })]) :=
  ⟨by with_unfolding_all rfl, by with_unfolding_all rfl⟩

/-- C3: the claim says a document with zero stroke points yields empty
output without an exception.  In the code the bounding box keeps its
seed `(inf, inf, -inf, -inf)`, so `width = height = -inf`,
`height / width = nan`, and `int(nan)` (line 66) raises `ValueError`
before any SVG is written — for every flag combination, for a document
with no `Ink` elements and for one whose only ink has no `Points`. -/
theorem convert_no_points_raises :
    ∀ color paging : Bool,
      convert ⟨[]⟩ "out" color paging
          = .error "ValueError: cannot convert float NaN to integer" ∧
        convert ⟨[⟨none, none, none⟩]⟩ "out" color paging
          = .error "ValueError: cannot convert float NaN to integer" :=
  fun _ _ => ⟨by with_unfolding_all rfl, by with_unfolding_all rfl⟩

/-- C6: the claim says a zero-width bounding box is guarded and treated
as the unpaginated case.  The code computes
`pages = int(height / width / aspect_ratio)` (line 66) unconditionally,
so when all points share one x coordinate Python divides by `0.0` and
raises `ZeroDivisionError` — even with paging disabled, so no page at
all is produced. -/
theorem convert_zero_width_raises :
    ∀ color paging : Bool,
      convert ⟨[⟨none, none, some [(5, 0), (5, 10)]⟩]⟩ "out" color paging
        = .error "ZeroDivisionError: float division by zero" :=
  fun _ _ => by with_unfolding_all rfl

/-- C7: the claim says a missing `Slides/` directory is non-fatal and the
run completes.  `process_slides` itself returns `None` after the warning
(line 117-118), but `__main__` then evaluates `', '.join(slides)` on that
`None` (line 168) and raises `TypeError`, aborting the run (first
conjunct).  With `Slides/` present but empty the run does complete with
the bare `Generated ` report (second conjunct), and with one convertible
slide it reports its stem (third conjunct). -/
theorem process_slides_missing_dir_type_error :
    (∀ color paging : Bool,
      mainReport false [] color paging = .error "TypeError: can only join an iterable") ∧
    (∀ color paging : Bool,
      mainReport true [] color paging = .ok "Generated ") ∧
    mainReport true [("a", ⟨[⟨none, none, some [(3, 7), (0, 0), (10, 20)]⟩]⟩)] false false
      = .ok "Generated a" :=
  ⟨fun _ _ => by with_unfolding_all rfl, fun _ _ => by with_unfolding_all rfl,
   by with_unfolding_all rfl⟩

/-- C8: a share URL whose parsed query mapping has no `s_id` key makes
the link branch fail with the descriptive message naming the parameter,
without consulting the network fetch at all (the result is the same for
every possible `fetch`); when `s_id` is present, `extract_sid` returns
the first value of the parameter. -/
theorem extract_sid_spec (qp : List (String × List String)) :
    (qp.lookup "s_id" = none →
      ∀ fetch : String → Except String String,
        fetch_branch qp fetch = .error "URL does not contain the \"s_id\" parameter.") ∧
    (∀ (v : String) (vs : List String),
      qp.lookup "s_id" = some (v :: vs) → extract_sid qp = .ok v) := by
  constructor
  · intro hnone fetch
    rw [fetch_branch, extract_sid, hnone]
  · intro v vs hsome
    rw [extract_sid, hsome]

/-- Witness for C8 at concrete inputs: a query without `s_id` errors out
independently of the fetch, and `s_id=abc&s_id=def` extracts `abc`. -/
theorem extract_sid_spec_witness :
    fetch_branch [("other", ["1"])] (fun s => Except.ok s)
        = .error "URL does not contain the \"s_id\" parameter." ∧
      extract_sid [("s_id", ["abc", "def"])] = .ok "abc" :=
  ⟨(extract_sid_spec [("other", ["1"])]).1 rfl _,
   (extract_sid_spec [("s_id", ["abc", "def"])]).2 "abc" ["def"] rfl⟩

/-- C1: for a document whose extrema exist (in particular when every Ink
has at least one well-formed point), the bounding box `convert` computes
is exactly the componentwise minimum and maximum of all parsed point
coordinates — `mx/my/Mx/My` being attained lower/upper bounds makes the
fold return exactly them — and the fold is seeded at
`(+inf, +inf, -inf, -inf)`, so the first point always updates all four
components. -/
theorem convert_bbox_exact (doc : Doc) (color : Bool) (mx my Mx My : ℚ)
    (hmx : mx ∈ allXs doc ∧ ∀ x ∈ allXs doc, mx ≤ x)
    (hmy : my ∈ allYs doc ∧ ∀ y ∈ allYs doc, my ≤ y)
    (hMx : Mx ∈ allXs doc ∧ ∀ x ∈ allXs doc, x ≤ Mx)
    (hMy : My ∈ allYs doc ∧ ∀ y ∈ allYs doc, y ≤ My) :
    (parseStrokes doc color).1 = ⟨.fin mx, .fin my, .fin Mx, .fin My⟩ ∧
      ∀ p : ℚ × ℚ, pointFold initBBox p = ⟨.fin p.1, .fin p.2, .fin p.1, .fin p.2⟩ :=
  ⟨parseStrokes_bbox doc color mx my Mx My hmx hmy hMx hMy,
   fun p => by with_unfolding_all rfl⟩

/-- Witness for C1: a two-ink document with points (1,2),(5,9),(0,4),(7,3)
has bounding box (0, 2, 7, 9), and the seed is updated on all four
components by a first point (3,4). -/
theorem convert_bbox_exact_witness :
    (parseStrokes ⟨[⟨none, none, some [(1, 2), (5, 9)]⟩, ⟨none, none, some [(0, 4), (7, 3)]⟩]⟩
        false).1 = ⟨.fin 0, .fin 2, .fin 7, .fin 9⟩ ∧
      pointFold initBBox (3, 4) = ⟨.fin 3, .fin 4, .fin 3, .fin 4⟩ := by
  obtain ⟨h1, h2⟩ := convert_bbox_exact
    ⟨[⟨none, none, some [(1, 2), (5, 9)]⟩, ⟨none, none, some [(0, 4), (7, 3)]⟩]⟩ false 0 2 7 9
    (by constructor <;> decide) (by constructor <;> decide)
    (by constructor <;> decide) (by constructor <;> decide)
  exact ⟨h1, h2 (3, 4)⟩

/-- C10: with color mode on, an Ink without a `ForegroundColor` child
stores Python `None` as its stroke color (`findtext` with no default,
line 46), and the f-string in `write_svg` (line 28) renders it as the
literal attribute value "None" — not a valid SVG color and not the
`#000000` fallback of monochrome mode.  Stated for the unpaginated run:
the single output page contains the ink's polyline with stroke "None"
whenever the ink's first point lies strictly inside the vertical
window. -/
theorem convert_fg_none_renders_none (doc : Doc) (pre : String) (ink : Ink)
    (p : ℚ × ℚ) (ps : List (ℚ × ℚ)) (mx my Mx My : ℚ)
    (hmem : ink ∈ doc.inks)
    (hfg : ink.foregroundColor = none)
    (hpts : ink.points = some (p :: ps))
    (hbb : (parseStrokes doc true).1 = ⟨.fin mx, .fin my, .fin Mx, .fin My⟩)
    (hw : Mx - mx ≠ 0)
    (hne : ∀ i ∈ doc.inks, i.points ≠ some [])
    (hwin : my < p.2 ∧ p.2 < My) :
    ∃ svg, convert doc pre true false = .ok (0, [(pre ++ ".svg", svg)]) ∧
      SvgElem.polyline ((p :: ps).map (fun q =>
          (PyFloat.add (PyFloat.sub (.fin q.1) (.fin mx)) (.fin padding),
           PyFloat.add (PyFloat.sub (.fin q.2) (.fin my)) (.fin padding))))
        "None" (ink.thickness.getD 1 * stroke_ratio) ∈ svg.elems := by
  refine ⟨renderWindow (.fin mx) (.fin my) (.fin (Mx - mx)) (.fin (My - my))
      (parseStrokes doc true).2 true,
    convert_eq_single doc pre true false mx my Mx My hbb hw hne (Or.inl rfl), ?_⟩
  have hio : inkStroke true ink
      = some ⟨p :: ps, none, ink.thickness.getD 1 * stroke_ratio⟩ := by
    rw [inkStroke, hpts, Option.map_some', hfg]
    simp
  have hsmem : (⟨p :: ps, none, ink.thickness.getD 1 * stroke_ratio⟩ : Stroke)
      ∈ (parseStrokes doc true).2 := by
    rw [parseStrokes_snd]
    exact List.mem_filterMap.mpr ⟨ink, hmem, hio⟩
  have hyy : my + (My - my) = My := by ring
  have hcond : (PyFloat.lt (.fin my) (.fin p.2)
      && PyFloat.lt (.fin p.2) (PyFloat.add (.fin my) (.fin (My - my)))) = true := by
    rw [PyFloat.add_fin, hyy, PyFloat.lt_fin, PyFloat.lt_fin]
    simp [hwin.1, hwin.2]
  have hse : strokeElem? (.fin mx) (.fin my) (.fin (My - my))
      ⟨p :: ps, none, ink.thickness.getD 1 * stroke_ratio⟩
      = some (SvgElem.polyline ((p :: ps).map (fun q =>
          (PyFloat.add (PyFloat.sub (.fin q.1) (.fin mx)) (.fin padding),
           PyFloat.add (PyFloat.sub (.fin q.2) (.fin my)) (.fin padding))))
        "None" (ink.thickness.getD 1 * stroke_ratio)) := by
    rw [show strokeElem? (.fin mx) (.fin my) (.fin (My - my))
          (⟨p :: ps, none, ink.thickness.getD 1 * stroke_ratio⟩ : Stroke)
        = (if PyFloat.lt (.fin my) (.fin p.2)
              && PyFloat.lt (.fin p.2) (PyFloat.add (.fin my) (.fin (My - my))) then
            some (strokePolyline (.fin mx) (.fin my)
              ⟨p :: ps, none, ink.thickness.getD 1 * stroke_ratio⟩)
          else none) from by rw [strokeElem?]]
    rw [if_pos hcond, strokePolyline]
    rfl
  exact List.mem_append_right _ (List.mem_filterMap.mpr ⟨_, hsmem, hse⟩)

/-- Witness for C10: a single-ink document with no `ForegroundColor`,
rendered in color mode, emits a polyline with the literal stroke value
"None". -/
theorem convert_fg_none_renders_none_witness :
    ∃ svg, convert ⟨[⟨none, none, some [(3, 7), (0, 0), (10, 20)]⟩]⟩ "o" true false
        = .ok (0, [("o.svg", svg)]) ∧
      SvgElem.polyline (([(3, 7), (0, 0), (10, 20)] : List (ℚ × ℚ)).map (fun q =>
          (PyFloat.add (PyFloat.sub (.fin q.1) (.fin 0)) (.fin padding),
           PyFloat.add (PyFloat.sub (.fin q.2) (.fin 0)) (.fin padding))))
        "None" ((none : Option ℚ).getD 1 * stroke_ratio) ∈ svg.elems :=
  convert_fg_none_renders_none ⟨[⟨none, none, some [(3, 7), (0, 0), (10, 20)]⟩]⟩ "o"
    ⟨none, none, some [(3, 7), (0, 0), (10, 20)]⟩ (3, 7) [(0, 0), (10, 20)] 0 0 10 20
    (List.Mem.head _) rfl rfl (by with_unfolding_all rfl) (by norm_num) (by decide)
    (by norm_num)

/-- C4 (amended): for a document whose points span exactly (0,0)-(100,50),
with default padding 10 and paging disabled, the single emitted SVG has
viewBox dimensions 120 by 70 (min anchored at the origin by the
`(-min_x + padding, -min_y + padding)` translation inside
`renderWindow`/`strokePolyline`), and contains one polyline per Ink
element whose FIRST point's y coordinate lies STRICTLY between 0 and 50
— not per Ink with at least one point, as the original claim said: the
window test on line 26 is strict, so a stroke starting on the bounding
box's horizontal edges is dropped (see the counterexample). -/
theorem convert_unpaged_viewbox (doc : Doc) (pre : String)
    (hb : ∀ q ∈ allPoints doc, 0 ≤ q.1 ∧ q.1 ≤ 100 ∧ 0 ≤ q.2 ∧ q.2 ≤ 50)
    (hx0 : ∃ q ∈ allPoints doc, q.1 = 0) (hx1 : ∃ q ∈ allPoints doc, q.1 = 100)
    (hy0 : ∃ q ∈ allPoints doc, q.2 = 0) (hy1 : ∃ q ∈ allPoints doc, q.2 = 50)
    (hne : ∀ ink ∈ doc.inks, ink.points ≠ some []) :
    convert doc pre false false
        = .ok (0, [(pre ++ ".svg",
            renderWindow (.fin 0) (.fin 0) (.fin 100) (.fin 50)
              (parseStrokes doc false).2 false)]) ∧
      (renderWindow (.fin 0) (.fin 0) (.fin 100) (.fin 50)
          (parseStrokes doc false).2 false).viewBoxW = .fin 120 ∧
      (renderWindow (.fin 0) (.fin 0) (.fin 100) (.fin 50)
          (parseStrokes doc false).2 false).viewBoxH = .fin 70 ∧
      countPolylines (renderWindow (.fin 0) (.fin 0) (.fin 100) (.fin 50)
          (parseStrokes doc false).2 false).elems
        = doc.inks.countP (inkFirstYBetween 0 50) := by
  have hmemx : ∀ m : ℚ, (∃ q ∈ allPoints doc, q.1 = m) → m ∈ allXs doc := by
    intro m ⟨q, hq, he⟩
    exact List.mem_map.mpr ⟨q, hq, he⟩
  have hmemy : ∀ m : ℚ, (∃ q ∈ allPoints doc, q.2 = m) → m ∈ allYs doc := by
    intro m ⟨q, hq, he⟩
    exact List.mem_map.mpr ⟨q, hq, he⟩
  have hbb : (parseStrokes doc false).1 = ⟨.fin 0, .fin 0, .fin 100, .fin 50⟩ := by
    apply parseStrokes_bbox doc false 0 0 100 50
    · refine ⟨hmemx 0 hx0, ?_⟩
      intro x hx
      obtain ⟨q, hq, he⟩ := List.mem_map.mp hx
      rw [← he]
      exact (hb q hq).1
    · refine ⟨hmemy 0 hy0, ?_⟩
      intro y hy
      obtain ⟨q, hq, he⟩ := List.mem_map.mp hy
      rw [← he]
      exact (hb q hq).2.2.1
    · refine ⟨hmemx 100 hx1, ?_⟩
      intro x hx
      obtain ⟨q, hq, he⟩ := List.mem_map.mp hx
      rw [← he]
      exact (hb q hq).2.1
    · refine ⟨hmemy 50 hy1, ?_⟩
      intro y hy
      obtain ⟨q, hq, he⟩ := List.mem_map.mp hy
      rw [← he]
      exact (hb q hq).2.2.2
  have hcv := convert_eq_single doc pre false false 0 0 100 50 hbb
    (by norm_num) hne (Or.inl rfl)
  rw [show (100 : ℚ) - 0 = 100 from by norm_num, show (50 : ℚ) - 0 = 50 from by norm_num] at hcv
  refine ⟨hcv, ?_, ?_, ?_⟩
  · show PyFloat.add (.fin 100) (.fin (2 * padding)) = .fin 120
    rw [PyFloat.add_fin]
    norm_num [padding]
  · show PyFloat.add (.fin 50) (.fin (2 * padding)) = .fin 70
    rw [PyFloat.add_fin]
    norm_num [padding]
  · show countPolylines ((parseStrokes doc false).2.filterMap
        (strokeElem? (.fin 0) (.fin 0) (.fin 50)))
      = doc.inks.countP (inkFirstYBetween 0 50)
    rw [countPolylines_filterMap, parseStrokes_snd,
      countP_filterMap_inkStroke false (.fin 0) (.fin 0) (.fin 50)]
    congr 1
    funext ink
    rw [inkWindowB, inkFirstYBetween]
    cases hp : ink.points with
    | none => rfl
    | some pts =>
        cases hpts : pts with
        | nil => rfl
        | cons p prest =>
            show (PyFloat.lt (.fin 0) (.fin p.2)
                && PyFloat.lt (.fin p.2) (PyFloat.add (.fin 0) (.fin 50)))
              = (decide ((0 : ℚ) < p.2) && decide (p.2 < 50))
            rw [PyFloat.add_fin, PyFloat.lt_fin, PyFloat.lt_fin,
              show (0 : ℚ) + 50 = 50 from by norm_num]

/-- Witness for C4 at a concrete document: one ink with points
(3,25),(0,0),(100,50) — extrema (0,0)-(100,50) attained, first point
strictly inside — gives viewBox 120 by 70 and exactly one polyline. -/
theorem convert_unpaged_viewbox_witness :
    convert ⟨[⟨none, none, some [(3, 25), (0, 0), (100, 50)]⟩]⟩ "out" false false
        = .ok (0, [("out.svg",
            renderWindow (.fin 0) (.fin 0) (.fin 100) (.fin 50)
              (parseStrokes ⟨[⟨none, none, some [(3, 25), (0, 0), (100, 50)]⟩]⟩ false).2
              false)]) ∧
      (renderWindow (.fin 0) (.fin 0) (.fin 100) (.fin 50)
          (parseStrokes ⟨[⟨none, none, some [(3, 25), (0, 0), (100, 50)]⟩]⟩ false).2
          false).viewBoxW = .fin 120 ∧
      (renderWindow (.fin 0) (.fin 0) (.fin 100) (.fin 50)
          (parseStrokes ⟨[⟨none, none, some [(3, 25), (0, 0), (100, 50)]⟩]⟩ false).2
          false).viewBoxH = .fin 70 ∧
      countPolylines (renderWindow (.fin 0) (.fin 0) (.fin 100) (.fin 50)
          (parseStrokes ⟨[⟨none, none, some [(3, 25), (0, 0), (100, 50)]⟩]⟩ false).2
          false).elems
        = (⟨[⟨none, none, some [(3, 25), (0, 0), (100, 50)]⟩]⟩ : Doc).inks.countP
            (inkFirstYBetween 0 50) :=
  convert_unpaged_viewbox ⟨[⟨none, none, some [(3, 25), (0, 0), (100, 50)]⟩]⟩ "out"
    (by decide) (by decide) (by decide) (by decide) (by decide) (by decide)

/-- C4 counterexample: the original claim promises one polyline per Ink
with at least one point.  A single ink whose points are (0,0),(100,50)
spans exactly (0,0)-(100,50) and has one non-empty Ink, yet the emitted
SVG contains NO polyline: the stroke's first point lies on the window
edge (y = 0) and the strict test `min_y < y < min_y + height` on
line 26 drops it. -/
theorem convert_edge_stroke_dropped :
    convert ⟨[⟨none, none, some [(0, 0), (100, 50)]⟩]⟩ "out" false false
        = .ok (0, [("out.svg",
            { viewBoxW := .fin 120, viewBoxH := .fin 70, elems := [] })]) ∧
      (⟨[⟨none, none, some [(0, 0), (100, 50)]⟩]⟩ : Doc).inks.countP
          (fun ink => !(ink.points.getD []).isEmpty) = 1 :=
  ⟨by with_unfolding_all rfl, by decide⟩

/-- C5 (amended): for a bounding box with width > 0 and
`int(height / width / aspect_ratio) = k ≥ 1`, with paging enabled,
`convert` returns page count `k` and exactly `k + 1` page files named
`<prefix>-0.svg` … `<prefix>-k.svg`; page `i` is the render of the
vertical window starting at `min_y + i*dh` with
`dh = (height - aspect_ratio*width)/k`, of window height
`aspect_ratio * width`, spanning the full horizontal width.  Each page's
viewBox declares height `aspect_ratio*width + 2*padding` (window height
plus padding, see `renderWindow`), not the bare `aspect_ratio*width` of
the original claim — the counterexample shows the difference. -/
theorem convert_paged_pages (doc : Doc) (pre : String) (color : Bool)
    (mx my Mx My : ℚ) (k : ℤ)
    (hbb : (parseStrokes doc color).1 = ⟨.fin mx, .fin my, .fin Mx, .fin My⟩)
    (hwpos : 0 < Mx - mx)
    (hne : ∀ ink ∈ doc.inks, ink.points ≠ some [])
    (hk : ratTrunc ((My - my) / (Mx - mx) / aspect_ratio) = k)
    (hk1 : 1 ≤ k) :
    convert doc pre color true
        = .ok (k, (List.range (k.toNat + 1)).map (fun (i : ℕ) =>
            (pre ++ "-" ++ toString i ++ ".svg",
             renderWindow (.fin mx)
               (.fin (my + ((i : ℕ) : ℚ) * ((My - my - aspect_ratio * (Mx - mx)) / (k : ℚ))))
               (.fin (Mx - mx)) (.fin (aspect_ratio * (Mx - mx)))
               (parseStrokes doc color).2 color))) ∧
      ((List.range (k.toNat + 1)).map (fun (i : ℕ) =>
            (pre ++ "-" ++ toString i ++ ".svg",
             renderWindow (.fin mx)
               (.fin (my + ((i : ℕ) : ℚ) * ((My - my - aspect_ratio * (Mx - mx)) / (k : ℚ))))
               (.fin (Mx - mx)) (.fin (aspect_ratio * (Mx - mx)))
               (parseStrokes doc color).2 color))).length = k.toNat + 1 ∧
      (∀ minx miny w h strokes c, (renderWindow minx miny w h strokes c).viewBoxH
        = PyFloat.add h (.fin (2 * padding))) :=
  ⟨convert_eq_paged doc pre color mx my Mx My k hbb (ne_of_gt hwpos) hne hk
      (by omega),
   by simp,
   fun _ _ _ _ _ _ => rfl⟩

/-- Witness for C5: one ink spanning (0,0)-(100, 282.8) has width 100 and
`int(282.8/100/1.414) = 2`, so paging produces pages out-0/1/2.svg. -/
theorem convert_paged_pages_witness :
    convert ⟨[⟨none, none, some [(0, 0), (100, 1414/5)]⟩]⟩ "out" false true
        = .ok (2, (List.range ((2 : ℤ).toNat + 1)).map (fun (i : ℕ) =>
            ("out" ++ "-" ++ toString i ++ ".svg",
             renderWindow (.fin 0)
               (.fin ((0 : ℚ) + ((i : ℕ) : ℚ)
                 * ((1414/5 - 0 - aspect_ratio * (100 - 0)) / ((2 : ℤ) : ℚ))))
               (.fin (100 - 0)) (.fin (aspect_ratio * (100 - 0)))
               (parseStrokes ⟨[⟨none, none, some [(0, 0), (100, 1414/5)]⟩]⟩ false).2
               false))) ∧
      ((List.range ((2 : ℤ).toNat + 1)).map (fun (i : ℕ) =>
            ("out" ++ "-" ++ toString i ++ ".svg",
             renderWindow (.fin 0)
               (.fin ((0 : ℚ) + ((i : ℕ) : ℚ)
                 * ((1414/5 - 0 - aspect_ratio * (100 - 0)) / ((2 : ℤ) : ℚ))))
               (.fin (100 - 0)) (.fin (aspect_ratio * (100 - 0)))
               (parseStrokes ⟨[⟨none, none, some [(0, 0), (100, 1414/5)]⟩]⟩ false).2
               false))).length = (2 : ℤ).toNat + 1 ∧
      (∀ minx miny w h strokes c, (renderWindow minx miny w h strokes c).viewBoxH
        = PyFloat.add h (.fin (2 * padding))) :=
  convert_paged_pages ⟨[⟨none, none, some [(0, 0), (100, 1414/5)]⟩]⟩ "out" false
    0 0 100 (1414/5) 2 (by with_unfolding_all rfl) (by norm_num) (by decide)
    (by with_unfolding_all rfl) (by norm_num)

/-- C5 counterexample: with the same input, every page's viewBox declares
height 161.4 = aspect_ratio*width + 2*padding, which is not the
aspect_ratio*width = 141.4 the original claim states. -/
theorem convert_page_viewbox_padding :
    ((convert ⟨[⟨none, none, some [(0, 0), (100, 1414/5)]⟩]⟩ "out" false true).map
        (fun r => r.2.map (fun pr => pr.2.viewBoxH)))
      = .ok [.fin (807/5), .fin (807/5), .fin (807/5)] ∧
      PyFloat.fin (807/5) ≠ .fin (aspect_ratio * 100) :=
  ⟨by with_unfolding_all rfl, by
    rw [aspect_ratio]
    intro h
    injection h with h
    norm_num at h⟩

/-- C9: properties of any page `convert` writes (every page is a
`write_svg` call on the parsed stroke list with the run's color flag).
With color off, every element of the page is a polyline with stroke
exactly "#000000" — in particular no background rectangle — regardless
of the ForegroundColor values in the document.  With color on, the first
element is a full-canvas rectangle (its dimensions are the viewBox
dimensions) filled with `BG_color = "#363b41"`, and every polyline
carries the document-supplied color of one of the document's Ink
elements (rendered through `strOfColor`). -/
theorem convert_color_modes (doc : Doc) (mxF myF wF hF : PyFloat) (svg1 svg2 : SvgDoc)
    (h1 : write_svg mxF myF wF hF (parseStrokes doc false).2 false = .ok svg1)
    (h2 : write_svg mxF myF wF hF (parseStrokes doc true).2 true = .ok svg2) :
    (∀ e ∈ svg1.elems, ∃ pts w, e = SvgElem.polyline pts "#000000" w) ∧
      svg2.elems.head? = some (SvgElem.rect svg2.viewBoxW svg2.viewBoxH BG_color) ∧
      (∀ pts c w, SvgElem.polyline pts c w ∈ svg2.elems →
        ∃ ink ∈ doc.inks, c = strOfColor ink.foregroundColor) := by
  obtain ⟨es1, hr1, hs1⟩ := write_svg_elems _ _ _ _ _ _ _ h1
  obtain ⟨es2, hr2, hs2⟩ := write_svg_elems _ _ _ _ _ _ _ h2
  refine ⟨?_, ?_, ?_⟩
  · intro e he
    rw [hs1] at he
    simp only [Bool.false_eq_true, if_false, List.nil_append] at he
    obtain ⟨s, hsmem, he'⟩ := renderStrokes_mem _ _ _ _ es1 hr1 e he
    subst he'
    have hc := parseStrokes_color_false doc s hsmem
    refine ⟨s.points.map (fun q =>
        (PyFloat.add (PyFloat.sub (.fin q.1) mxF) (.fin padding),
         PyFloat.add (PyFloat.sub (.fin q.2) myF) (.fin padding))), s.width, ?_⟩
    rw [strokePolyline, hc]
    rfl
  · rw [hs2]
    rfl
  · intro pts c w he
    rw [hs2] at he
    have he' : SvgElem.polyline pts c w ∈ es2 := by
      rcases List.mem_cons.mp he with h | h
      · exact absurd h (by simp)
      · exact h
    obtain ⟨s, hsmem, heq⟩ := renderStrokes_mem _ _ _ _ es2 hr2 _ he'
    obtain ⟨ink, hink, hcol⟩ := parseStrokes_color_true doc s hsmem
    refine ⟨ink, hink, ?_⟩
    rw [strokePolyline] at heq
    injection heq with hq1 hq2 hq3
    rw [hq2, hcol]

/-- Witness for C9: for a one-ink document with ForegroundColor #ff0000
and thickness 2, the monochrome page holds exactly one black polyline,
and the color page opens with the full-canvas #363b41 rectangle and the
polyline carries #ff0000. -/
theorem convert_color_modes_witness :
    (∃ pts w, SvgElem.polyline
        [(PyFloat.fin 13, PyFloat.fin 17), (PyFloat.fin 10, PyFloat.fin 10),
         (PyFloat.fin 20, PyFloat.fin 30)] "#000000" (2 : ℚ)
        = SvgElem.polyline pts "#000000" w) ∧
      (SvgDoc.elems { viewBoxW := PyFloat.fin 30, viewBoxH := PyFloat.fin 40
                    , elems := [SvgElem.rect (PyFloat.fin 30) (PyFloat.fin 40) BG_color,
                        SvgElem.polyline [(PyFloat.fin 13, PyFloat.fin 17),
                          (PyFloat.fin 10, PyFloat.fin 10), (PyFloat.fin 20, PyFloat.fin 30)]
                          "#ff0000" (2 : ℚ)] }).head?
        = some (SvgElem.rect (PyFloat.fin 30) (PyFloat.fin 40) BG_color) ∧
      ∃ ink ∈ (⟨[⟨some 2, some "#ff0000", some [(3, 7), (0, 0), (10, 20)]⟩]⟩ : Doc).inks,
        "#ff0000" = strOfColor ink.foregroundColor := by
  have h := convert_color_modes ⟨[⟨some 2, some "#ff0000", some [(3, 7), (0, 0), (10, 20)]⟩]⟩
    (.fin 0) (.fin 0) (.fin 10) (.fin 20)
    { viewBoxW := .fin 30, viewBoxH := .fin 40
    , elems := [SvgElem.polyline [(.fin 13, .fin 17), (.fin 10, .fin 10), (.fin 20, .fin 30)]
        "#000000" 2] }
    { viewBoxW := .fin 30, viewBoxH := .fin 40
    , elems := [SvgElem.rect (.fin 30) (.fin 40) BG_color,
        SvgElem.polyline [(.fin 13, .fin 17), (.fin 10, .fin 10), (.fin 20, .fin 30)]
          "#ff0000" 2] }
    (by with_unfolding_all rfl) (by with_unfolding_all rfl)
  exact ⟨h.1 _ (List.Mem.head _), h.2.1,
    h.2.2 _ "#ff0000" _ (List.Mem.tail _ (List.Mem.head _))⟩
